import Mathlib

/-!
# AquaVisionX water-usage dashboard: a shallow embedding of `app.py`

The repository is a single Streamlit script.  Its logical core is:

* `generate_data` — builds the synthetic dataset: 31 consecutive days ending
  "today", crossed with the categories `Boys`, `Girls`, `Staff`, each with a
  usage value drawn by `np.random.randint(50, 200)`.
* the date-range validation (`if len(date_range) != 2: st.error(...); st.stop()`),
* the empty-category fallback (`selected_categories = ["Boys"]` plus a warning),
* `filtered_df` — the boolean-mask filter on date bounds and category membership,
* the aggregate metrics (`total_usage`, `avg_daily`, `peak_day`), the per-category
  grouping (`category_usage`) and the ascending-sorted `leaderboard`.

Pandas stores the `Date` column as timestamps carrying the time of day at which
`datetime.today()` ran, while `st.date_input` returns calendar dates that
`pd.to_datetime` converts to midnight timestamps.  We therefore model a
timestamp as an integer number of seconds and a calendar date as an integer
day number, with `to_datetime` mapping a day to its midnight timestamp and
`dayOf` extracting the day of a timestamp by floor division.

`np.random.randint` and the `numpy` global generator are modelled by a stream
`rand : Nat → Nat` of raw draws: the `k`-th call with bounds `(lo, hi)` returns
`lo + rand k % (hi - lo)`, which realises exactly the half-open range
`[lo, hi)` as `rand` ranges over all streams.
-/

/-- Number of seconds in a day; `timedelta(days=1)` and the `'D'` frequency of
`pd.date_range`. -/
def secPerDay : Int := 86400

/-- `pd.to_datetime` applied to a calendar date: the midnight timestamp of that
day. -/
def to_datetime (day : Int) : Int := day * secPerDay

/-- The calendar day of a timestamp (floor division, as for epoch-based
timestamps; `/` on `Int` rounds toward negative infinity for a positive
divisor). -/
def dayOf (ts : Int) : Int := ts / secPerDay

/-- One row of the dataframe built by `generate_data`:
`{'Date': date, 'Category': cat, 'Water Usage (Litres)': usage}`.
`date` is a timestamp in seconds. -/
structure UsageRecord where
  date : Int
  category : String
  usage : Nat
deriving DecidableEq, Repr

/-- `np.random.randint(lo, hi)` for the `k`-th raw draw `s`: a value in the
half-open range `[lo, hi)`. -/
def randint (lo hi : Nat) (s : Nat) : Nat := lo + s % (hi - lo)

/-- `categories = ['Boys', 'Girls', 'Staff']` in `generate_data`. -/
def categories : List String := ["Boys", "Girls", "Staff"]

/-- `dates = pd.date_range(start=datetime.today() - timedelta(days=30), periods=31)`:
31 daily timestamps ending at `today` (a timestamp, midnight not assumed). -/
def dateRange (today : Int) : List Int :=
  (List.range 31).map (fun (i : Nat) => today - 30 * secPerDay + (i : Int) * secPerDay)

/-- `generate_data()` from `app.py`: the nested loop over `dates` and
`categories`, appending one record per `(date, cat)` pair with a fresh random
draw.  `today` is the timestamp of `datetime.today()`; `rand` is the stream of
raw random draws, indexed in program order. -/
def generate_data (today : Int) (rand : Nat → Nat) : List UsageRecord :=
  (List.range 31).flatMap (fun i =>
    (List.range 3).map (fun j =>
      { date := today - 30 * secPerDay + i * secPerDay
        category := categories.getD j ""
        usage := randint 50 200 (rand (i * 3 + j)) }))

/-- The boolean mask of `filtered_df`:
`(df['Date'] >= pd.to_datetime(start_date)) & (df['Date'] <= pd.to_datetime(end_date))
 & (df['Category'].isin(selected_categories))`. -/
def rowMask (start_date end_date : Int) (selected : List String)
    (r : UsageRecord) : Bool :=
  decide (to_datetime start_date ≤ r.date) &&
  decide (r.date ≤ to_datetime end_date) &&
  selected.contains r.category

/-- `filtered_df = df[(df['Date'] >= pd.to_datetime(start_date)) & ...]`:
`start_date` and `end_date` are the calendar dates returned by
`st.date_input`. -/
def filtered_df (df : List UsageRecord) (start_date end_date : Int)
    (selected : List String) : List UsageRecord :=
  df.filter (rowMask start_date end_date selected)

/-- `filtered_df['Water Usage (Litres)'].sum()`. -/
def total_usage (l : List UsageRecord) : Nat :=
  (l.map (·.usage)).sum

/-- Insertion of one element into a sorted list, for the sorted groupby index
and `sort_values`. -/
def insort {α : Type} (le : α → α → Bool) (x : α) : List α → List α
  | [] => [x]
  | y :: ys => if le x y then x :: y :: ys else y :: insort le x ys

/-- Insertion sort with comparator `le`; models the sorted group keys of a
pandas `groupby` and `DataFrame.sort_values`. -/
def sortBy {α : Type} (le : α → α → Bool) (l : List α) : List α :=
  l.foldr (insort le) []

/-- The distinct values of the `Date` column of a frame, in order of first
appearance. -/
def datesOf (l : List UsageRecord) : List Int :=
  (l.map (·.date)).dedup

/-- The per-date usage sum: one entry of
`filtered_df.groupby('Date')['Water Usage (Litres)'].sum()`. -/
def dayTotal (l : List UsageRecord) (d : Int) : Nat :=
  total_usage (l.filter (fun r => r.date = d))

/-- `filtered_df.groupby('Date')['Water Usage (Litres)'].sum()`: the series of
per-date sums, indexed by the distinct dates sorted ascending (pandas sorts
group keys). -/
def dailyTotals (l : List UsageRecord) : List (Int × Nat) :=
  (sortBy (fun a b : Int => decide (a ≤ b)) (datesOf l)).map
    (fun d => (d, dayTotal l d))

/-- `Series.mean()` over `dailyTotals`, as an exact rational. -/
def avg_daily (l : List UsageRecord) : ℚ :=
  (((dailyTotals l).map (fun p => (p.2 : ℚ))).sum) / ((dailyTotals l).length : ℚ)

/-- `Series.idxmax()`: the index label of the first occurrence of the maximum
value, scanning the series in index order. -/
def idxmaxPair (l : List (Int × Nat)) : Option (Int × Nat) :=
  match l with
  | [] => none
  | p :: ps => some (ps.foldl (fun best q => if q.2 > best.2 then q else best) p)

/-- `peak_day = filtered_df.groupby('Date')['Water Usage (Litres)'].sum().idxmax()`. -/
def peak_day (l : List UsageRecord) : Option Int :=
  (idxmaxPair (dailyTotals l)).map (·.1)

/-- The per-category usage sum. -/
def catTotal (l : List UsageRecord) (c : String) : Nat :=
  total_usage (l.filter (fun r => r.category = c))

/-- `category_usage = filtered_df.groupby('Category')['Water Usage (Litres)'].sum().reset_index()`:
(category, total) rows with categories as sorted group keys. -/
def category_usage (l : List UsageRecord) : List (String × Nat) :=
  (sortBy (fun a b : String => decide (a ≤ b)) ((l.map (·.category)).dedup)).map
    (fun c => (c, catTotal l c))

/-- `leaderboard = ...groupby('Category')...sum().reset_index()
       .sort_values(by='Water Usage (Litres)', ascending=True)`. -/
def leaderboard (l : List UsageRecord) : List (String × Nat) :=
  sortBy (fun p q : String × Nat => decide (p.2 ≤ q.2)) (category_usage l)

/-- Everything the script renders for one interaction once validation has
passed: the warning banner state, the filtered frame, the three KPI values
(with the `filtered_df.empty` defaults of the `else` branch), the category
breakdown and the leaderboard table. -/
structure Output where
  warned : Bool
  filtered : List UsageRecord
  totalUsage : Nat
  avgDaily : ℚ
  peakDay : Option Int
  categoryUsage : List (String × Nat)
  board : List (String × Nat)
deriving Repr

/-- Result of one interaction: either `st.error(msg); st.stop()` (nothing below
the stop runs) or a full rendering pass. -/
inductive InteractionResult where
  | halted : String → InteractionResult
  | rendered : Output → InteractionResult
deriving Repr

/-- One top-to-bottom run of the script body after `df = generate_data()`:
`date_range` is the value of `st.date_input` (a list of calendar dates) and
`sel` the value of `st.sidebar.multiselect`.  Mirrors the control flow of
`app.py` lines 89–207: the length-2 validation, the empty-selection fallback
to `["Boys"]` with a warning, the filter, and each `filtered_df.empty` branch
of the metrics, charts and leaderboard sections. -/
def run_app (df : List UsageRecord) (date_range : List Int)
    (sel : List String) : InteractionResult :=
  match date_range with
  | [start_date, end_date] =>
    let warned := sel.isEmpty
    let selected_categories := if sel.isEmpty then ["Boys"] else sel
    let fd := filtered_df df start_date end_date selected_categories
    .rendered
      { warned := warned
        filtered := fd
        totalUsage := if fd.isEmpty then 0 else total_usage fd
        avgDaily := if fd.isEmpty then 0 else avg_daily fd
        peakDay := if fd.isEmpty then none else peak_day fd
        categoryUsage := if fd.isEmpty then [] else category_usage fd
        board := if fd.isEmpty then [] else leaderboard fd }
  | _ => .halted "Please select a valid date range."

/-! ## General lemmas about the insertion sort used for group keys -/

theorem insort_perm {α : Type} (le : α → α → Bool) (x : α) :
    ∀ l : List α, (insort le x l).Perm (x :: l)
  | [] => List.Perm.refl _
  | y :: ys => by
    by_cases h : le x y = true
    · simp [insort, h]
    · simp only [insort, h, if_neg, Bool.false_eq_true, not_false_iff]
      exact ((insort_perm le x ys).cons y).trans (List.Perm.swap x y ys)

theorem sortBy_perm {α : Type} (le : α → α → Bool) (l : List α) :
    (sortBy le l).Perm l := by
  induction l with
  | nil => exact List.Perm.refl _
  | cons x xs ih =>
    exact (insort_perm le x (sortBy le xs)).trans (ih.cons x)

theorem mem_sortBy {α : Type} (le : α → α → Bool) (l : List α) (x : α) :
    x ∈ sortBy le l ↔ x ∈ l :=
  (sortBy_perm le l).mem_iff

theorem insort_pairwise {α : Type} {le : α → α → Bool}
    (htot : ∀ a b : α, le a b = false → le b a = true)
    (htrans : ∀ a b c : α, le a b = true → le b c = true → le a c = true)
    (x : α) :
    ∀ l : List α, l.Pairwise (fun a b => le a b = true) →
      (insort le x l).Pairwise (fun a b => le a b = true)
  | [], _ => by simp [insort]
  | y :: ys, h => by
    rw [List.pairwise_cons] at h
    obtain ⟨hy, hys⟩ := h
    by_cases hxy : le x y = true
    · simp only [insort, hxy, if_pos]
      refine List.pairwise_cons.mpr ⟨?_, List.pairwise_cons.mpr ⟨hy, hys⟩⟩
      intro z hz
      rcases List.mem_cons.mp hz with rfl | hz
      · exact hxy
      · exact htrans x y z hxy (hy z hz)
    · simp only [insort, hxy, if_neg, Bool.false_eq_true, not_false_iff]
      refine List.pairwise_cons.mpr ⟨?_, insort_pairwise htot htrans x ys hys⟩
      intro z hz
      rcases List.mem_cons.mp ((insort_perm le x ys).mem_iff.mp hz) with heq | hz'
      · subst heq
        exact htot _ _ (Bool.eq_false_iff.mpr hxy)
      · exact hy z hz'

theorem sortBy_pairwise {α : Type} {le : α → α → Bool}
    (htot : ∀ a b : α, le a b = false → le b a = true)
    (htrans : ∀ a b c : α, le a b = true → le b c = true → le a c = true)
    (l : List α) : (sortBy le l).Pairwise (fun a b => le a b = true) := by
  induction l with
  | nil => exact List.Pairwise.nil
  | cons x xs ih => exact insort_pairwise htot htrans x (sortBy le xs) ih

/-! ## Theorems for the claims about validation and defaults -/

/-- C2: whenever the supplied date range has fewer or more than two endpoints,
the script calls `st.error` and `st.stop()`: the interaction halts with the
validation message and none of the filtering, metrics, chart or leaderboard
outputs is produced. -/
theorem run_app_halts_on_bad_range (df : List UsageRecord) (dr : List Int)
    (sel : List String) (h : dr.length ≠ 2) :
    run_app df dr sel = .halted "Please select a valid date range." := by
  match dr with
  | [] => rfl
  | [_] => rfl
  | [_, _] => exact absurd rfl h
  | _ :: _ :: _ :: _ => rfl

theorem run_app_halts_on_bad_range_w :
    run_app [] [] [] = .halted "Please select a valid date range." :=
  run_app_halts_on_bad_range [] [] [] (by decide)

/-- C3: with an empty category selection, the script warns and substitutes
`["Boys"]`, so the rendered output is identical to the one for the explicit
selection `["Boys"]` except that the warning flag is set. -/
theorem empty_selection_is_boys (df : List UsageRecord) (s e : Int) :
    ∃ o : Output, run_app df [s, e] ["Boys"] = .rendered o ∧ o.warned = false ∧
      run_app df [s, e] [] = .rendered { o with warned := true } :=
  ⟨_, rfl, rfl, rfl⟩

/-- C4: when the filtered frame is empty, every `filtered_df.empty` branch
takes its default: total 0, average 0, peak day the `"N/A"` sentinel
(modelled as `none`), and no leaderboard rows.  The embedding is a total
function, so no exception can occur. -/
theorem empty_filter_defaults (df : List UsageRecord) (s e : Int)
    (sel : List String) (o : Output)
    (h : run_app df [s, e] sel = .rendered o) (he : o.filtered = []) :
    o.totalUsage = 0 ∧ o.avgDaily = 0 ∧ o.peakDay = none ∧ o.board = [] := by
  simp only [run_app] at h
  injection h with h2
  subst h2
  dsimp only at he ⊢
  rw [he]
  exact ⟨rfl, rfl, rfl, rfl⟩

/-- Membership in the generated frame, unfolded: a record is produced by the
nested loop exactly when it is the `(i, j)` iteration's row for some
`i < 31`, `j < 3`. -/
theorem mem_generate_data (today : Int) (rand : Nat → Nat) (r : UsageRecord) :
    r ∈ generate_data today rand ↔ ∃ i : Nat, i < 31 ∧ ∃ j : Nat, j < 3 ∧
      r = { date := today - 30 * secPerDay + (i : Int) * secPerDay
            category := categories.getD j ""
            usage := randint 50 200 (rand (i * 3 + j)) } := by
  simp only [generate_data, List.mem_flatMap, List.mem_map, List.mem_range]
  constructor
  · rintro ⟨i, hi, j, hj, rfl⟩
    exact ⟨i, hi, j, hj, rfl⟩
  · rintro ⟨i, hi, j, hj, rfl⟩
    exact ⟨i, hi, j, hj, rfl⟩

/-- Every raw draw is mapped into `[50, 200)`. -/
theorem randint_lt (s : Nat) : randint 50 200 s < 200 := by
  have : s % 150 < 150 := Nat.mod_lt s (by decide)
  simp only [randint]
  omega

/-- C1 (failing input): the dataset generated at 12:00 of day 0 contains the
record `(Date = day 0 at 12:00, Boys, 50)`, whose calendar day lies inside the
selected range `[-30, 0]` and whose category is selected, yet the filter drops
it, because `pd.to_datetime(end_date)` is midnight of day 0 and the record's
timestamp is 12:00 of day 0. -/
theorem filter_drops_end_day_record :
    (⟨43200, "Boys", 50⟩ : UsageRecord) ∈ generate_data 43200 (fun _ => 0) ∧
      (-30 : Int) ≤ dayOf (43200 : Int) ∧ dayOf (43200 : Int) ≤ 0 ∧
      "Boys" ∈ ["Boys", "Girls", "Staff"] ∧
      (⟨43200, "Boys", 50⟩ : UsageRecord) ∉
        filtered_df (generate_data 43200 (fun _ => 0)) (-30) 0
          ["Boys", "Girls", "Staff"] := by
  refine ⟨?_, by decide, by decide, by decide, ?_⟩
  · exact (mem_generate_data _ _ _).mpr ⟨30, by decide, 0, by decide, by decide⟩
  · intro hmem
    have := List.of_mem_filter hmem
    simp only [rowMask, Bool.and_eq_true, decide_eq_true_eq] at this
    have h2 := this.1.2
    simp only [to_datetime] at h2
    omega

/-- C5 (counterexample): the usage value 200 is not attainable: for every
generation time and every stream of raw draws, no generated record has usage
200, because `np.random.randint(50, 200)` draws from the half-open range
`[50, 200)`. -/
theorem usage_200_unattainable :
    ¬ ∃ (today : Int) (rand : Nat → Nat),
        ∃ r ∈ generate_data today rand, r.usage = 200 := by
  rintro ⟨today, rand, r, hmem, h200⟩
  obtain ⟨i, _, j, _, rfl⟩ := (mem_generate_data today rand r).mp hmem
  dsimp only at h200
  exact absurd h200 (Nat.ne_of_lt (randint_lt _))

/-- C5 (amended): every generated usage value lies in the half-open range
`[50, 200)` — that is, `50 ≤ v ≤ 199` — and every value of that range,
199 included but not 200, is attainable for some generation time and some
stream of raw draws. -/
theorem usage_half_open_range :
    (∀ (today : Int) (rand : Nat → Nat), ∀ r ∈ generate_data today rand,
        50 ≤ r.usage ∧ r.usage ≤ 199) ∧
      (∀ v : Nat, 50 ≤ v → v ≤ 199 →
        ∃ (today : Int) (rand : Nat → Nat),
          ∃ r ∈ generate_data today rand, r.usage = v) := by
  constructor
  · intro today rand r hmem
    obtain ⟨i, _, j, _, rfl⟩ := (mem_generate_data today rand r).mp hmem
    dsimp only
    refine ⟨Nat.le_add_right 50 _, ?_⟩
    have := randint_lt (rand (i * 3 + j))
    omega
  · intro v hv50 hv199
    refine ⟨0, fun _ => v - 50,
      ⟨0 - 30 * secPerDay + 0 * secPerDay, categories.getD 0 "",
        randint 50 200 (v - 50)⟩,
      (mem_generate_data _ _ _).mpr ⟨0, by decide, 0, by decide, by simp⟩, ?_⟩
    simp only [randint]
    have : (v - 50) % 150 = v - 50 := Nat.mod_eq_of_lt (by omega)
    omega

theorem usage_half_open_range_w :
    50 ≤ (⟨43200, "Boys", 50⟩ : UsageRecord).usage ∧
      (⟨43200, "Boys", 50⟩ : UsageRecord).usage ≤ 199 :=
  usage_half_open_range.1 43200 (fun _ => 0) ⟨43200, "Boys", 50⟩
    ((mem_generate_data _ _ _).mpr ⟨30, by decide, 0, by decide, by decide⟩)

/-- The `(Date, Category)` columns of the generated frame are exactly the
cross product of the 31 dates with the category list, date-major and
category-minor. -/
theorem generate_data_keys_aux (today : Int) (rand : Nat → Nat) : ∀ n : Nat,
    (((List.range n).flatMap (fun i =>
      (List.range 3).map (fun j =>
        ({ date := today - 30 * secPerDay + i * secPerDay
           category := categories.getD j ""
           usage := randint 50 200 (rand (i * 3 + j)) } : UsageRecord)))).map
            (fun r => (r.date, r.category))) =
      ((List.range n).map
          (fun (i : Nat) => today - 30 * secPerDay + (i : Int) * secPerDay)).flatMap
        (fun d => categories.map (fun c => (d, c)))
  | 0 => rfl
  | n + 1 => by
    rw [List.range_succ]
    simp only [List.flatMap_append, List.map_append,
      generate_data_keys_aux today rand n]
    rfl

theorem generate_data_keys (today : Int) (rand : Nat → Nat) :
    (generate_data today rand).map (fun r => (r.date, r.category)) =
      (dateRange today).flatMap (fun d => categories.map (fun c => (d, c))) :=
  generate_data_keys_aux today rand 31

/-- No two generated records share both their date and their category. -/
theorem generate_data_keys_nodup (today : Int) (rand : Nat → Nat) :
    ((generate_data today rand).map (fun r => (r.date, r.category))).Nodup := by
  rw [generate_data_keys, List.nodup_flatMap]
  constructor
  · intro d _
    exact List.Nodup.map (fun a b hab => (Prod.mk.injEq _ _ _ _).mp hab |>.2)
      (by decide)
  · have hnd : (dateRange today).Nodup := by
      simp only [dateRange]
      refine List.Nodup.map ?_ (List.nodup_range 31)
      intro i j hij
      simp only [secPerDay] at hij
      omega
    refine hnd.imp ?_
    intro d d' hdd x hx hx'
    obtain ⟨c, _, rfl⟩ := List.mem_map.mp hx
    obtain ⟨c', _, hc'⟩ := List.mem_map.mp hx'
    exact hdd ((Prod.mk.injEq _ _ _ _).mp hc'.symm |>.1)

theorem countP_eq_zero_of_not_mem {α : Type} [DecidableEq α] {l : List α}
    {a : α} (ha : a ∉ l) : l.countP (fun x => decide (x = a)) = 0 := by
  induction l with
  | nil => rfl
  | cons x l ih =>
    rw [List.countP_cons]
    have hxa : ¬x = a := fun h => ha (h ▸ List.mem_cons_self x l)
    simp only [hxa, decide_False, if_neg, List.mem_cons, not_or] at *
    exact ih ha.2

theorem countP_eq_one_of_nodup_mem {α : Type} [DecidableEq α] {l : List α}
    {a : α} (hnd : l.Nodup) (ha : a ∈ l) :
    l.countP (fun x => decide (x = a)) = 1 := by
  induction l with
  | nil => exact absurd ha (List.not_mem_nil a)
  | cons x l ih =>
    rw [List.countP_cons]
    rw [List.nodup_cons] at hnd
    rcases List.mem_cons.mp ha with rfl | hal
    · rw [countP_eq_zero_of_not_mem hnd.1]
      simp
    · have hxa : ¬x = a := fun h => hnd.1 (h ▸ hal)
      simp only [hxa, decide_False, if_neg]
      simpa using ih hnd.2 hal

/-- C6: the generated dataset is a dense grid: its `(Date, Category)` pairs
are, in order, the 31 consecutive dates (whose calendar days are the 31 days
ending at today's day) crossed date-major/category-minor with
`{Boys, Girls, Staff}`, with no duplicate pair, and every `(date, category)`
pair of the grid matches exactly one record while pairs outside the grid match
none. -/
theorem generate_data_dense_grid (today : Int) (rand : Nat → Nat) :
    (generate_data today rand).map (fun r => (r.date, r.category)) =
        (dateRange today).flatMap (fun d => categories.map (fun c => (d, c))) ∧
      ((generate_data today rand).map (fun r => (r.date, r.category))).Nodup ∧
      (∀ i : Nat, i < 31 →
        dayOf (today - 30 * secPerDay + (i : Int) * secPerDay) =
          dayOf today - 30 + i) ∧
      (∀ d : Int, ∀ c : String,
        ((generate_data today rand).filter
            (fun r => decide (r.date = d) && decide (r.category = c))).length =
          if d ∈ dateRange today ∧ c ∈ categories then 1 else 0) := by
  refine ⟨generate_data_keys today rand, generate_data_keys_nodup today rand,
    ?_, ?_⟩
  · intro i hi
    simp only [dayOf, secPerDay]
    omega
  · intro d c
    have h1 : ((generate_data today rand).filter
          (fun r => decide (r.date = d) && decide (r.category = c))).length =
        List.countP (fun x => decide (x = (d, c)))
          ((generate_data today rand).map (fun r => (r.date, r.category))) := by
      rw [← List.countP_eq_length_filter, List.countP_map]
      refine List.countP_congr ?_
      intro r _
      simp [Prod.ext_iff]
    rw [h1, generate_data_keys]
    have hmem : ((d, c) ∈
          (dateRange today).flatMap (fun d => categories.map (fun c => (d, c)))) ↔
        d ∈ dateRange today ∧ c ∈ categories := by
      simp only [List.mem_flatMap, List.mem_map, Prod.mk.injEq]
      constructor
      · rintro ⟨a, ha, c', hc', rfl, rfl⟩
        exact ⟨ha, hc'⟩
      · rintro ⟨ha, hc⟩
        exact ⟨d, ha, c, hc, rfl, rfl⟩
    by_cases hdc : d ∈ dateRange today ∧ c ∈ categories
    · rw [if_pos hdc]
      have hnd : ((dateRange today).flatMap
          (fun d => categories.map (fun c => (d, c)))).Nodup := by
        rw [← generate_data_keys today rand]
        exact generate_data_keys_nodup today rand
      exact countP_eq_one_of_nodup_mem hnd (hmem.mpr hdc)
    · rw [if_neg hdc]
      exact countP_eq_zero_of_not_mem (fun hc => hdc (hmem.mp hc))

theorem generate_data_dense_grid_w :
    dayOf ((0 : Int) - 30 * secPerDay + ((0 : Nat) : Int) * secPerDay) =
      dayOf 0 - 30 + ((0 : Nat) : Int) :=
  (generate_data_dense_grid 0 (fun _ => 0)).2.2.1 0 (by decide)

/-- Totality of the integer comparator used for the date group keys. -/
theorem leInt_total (a b : Int) :
    (fun a b : Int => decide (a ≤ b)) a b = false →
    (fun a b : Int => decide (a ≤ b)) b a = true := by
  simp only [decide_eq_false_iff_not, not_le, decide_eq_true_eq]
  exact Int.le_of_lt

/-- Transitivity of the integer comparator used for the date group keys. -/
theorem leInt_trans (a b c : Int) :
    (fun a b : Int => decide (a ≤ b)) a b = true →
    (fun a b : Int => decide (a ≤ b)) b c = true →
    (fun a b : Int => decide (a ≤ b)) a c = true := by
  simp only [decide_eq_true_eq]
  exact Int.le_trans

/-- Specification of the `idxmax` fold: on a series whose index keys are
non-decreasing, the fold returns an entry of the series whose value is
maximal, and whose key is not after the key of any other entry attaining that
value — pandas' first-occurrence-of-the-maximum rule. -/
theorem idxmax_foldl_spec :
    ∀ (ps : List (Int × Nat)) (best : Int × Nat),
      (best :: ps).Pairwise (fun a b => a.1 ≤ b.1) →
      (ps.foldl (fun best q => if q.2 > best.2 then q else best) best ∈
          best :: ps) ∧
        (∀ q ∈ best :: ps,
          q.2 ≤ (ps.foldl (fun best q => if q.2 > best.2 then q else best)
            best).2) ∧
        (∀ q ∈ best :: ps,
          q.2 = (ps.foldl (fun best q => if q.2 > best.2 then q else best)
              best).2 →
          (ps.foldl (fun best q => if q.2 > best.2 then q else best)
              best).1 ≤ q.1)
  | [], best, _ => by
    refine ⟨List.mem_cons_self best [], ?_, ?_⟩
    · intro q hq
      rw [List.mem_singleton.mp hq]
      exact Nat.le_refl _
    · intro q hq _
      rw [List.mem_singleton.mp hq]
      exact Int.le_refl _
  | p :: ps, best, hpw => by
    have hbp : best.1 ≤ p.1 :=
      (List.pairwise_cons.mp hpw).1 p (List.mem_cons_self p ps)
    rw [List.foldl_cons]
    by_cases hc : p.2 > best.2
    · rw [if_pos hc]
      have hpw' : (p :: ps).Pairwise (fun a b => a.1 ≤ b.1) := hpw.of_cons
      obtain ⟨hmem, hmax, hfirst⟩ := idxmax_foldl_spec ps p hpw'
      refine ⟨List.mem_cons_of_mem _ hmem, ?_, ?_⟩
      · intro q hq
        rcases List.mem_cons.mp hq with rfl | hq'
        · exact Nat.le_trans (Nat.le_of_lt hc) (hmax p (List.mem_cons_self p ps))
        · exact hmax q hq'
      · intro q hq hqe
        rcases List.mem_cons.mp hq with rfl | hq'
        · exact absurd hqe (Nat.ne_of_lt
            (Nat.lt_of_lt_of_le hc (hmax p (List.mem_cons_self p ps))))
        · exact hfirst q hq' hqe
    · rw [if_neg hc]
      have hple : p.2 ≤ best.2 := Nat.le_of_not_lt hc
      have hpw' : (best :: ps).Pairwise (fun a b => a.1 ≤ b.1) := by
        refine List.pairwise_cons.mpr ⟨?_, (List.pairwise_cons.mp hpw.of_cons).2⟩
        intro x hx
        exact (List.pairwise_cons.mp hpw).1 x (List.mem_cons_of_mem _ hx)
      obtain ⟨hmem, hmax, hfirst⟩ := idxmax_foldl_spec ps best hpw'
      refine ⟨?_, ?_, ?_⟩
      · rcases List.mem_cons.mp hmem with he | hm
        · rw [he]
          exact List.mem_cons_self best (p :: ps)
        · exact List.mem_cons_of_mem _ (List.mem_cons_of_mem _ hm)
      · intro q hq
        rcases List.mem_cons.mp hq with rfl | hq'
        · exact hmax q (List.mem_cons_self q ps)
        rcases List.mem_cons.mp hq' with rfl | hq''
        · exact Nat.le_trans hple (hmax best (List.mem_cons_self best ps))
        · exact hmax q (List.mem_cons_of_mem _ hq'')
      · intro q hq hqe
        rcases List.mem_cons.mp hq with rfl | hq'
        · exact hfirst q (List.mem_cons_self q ps) hqe
        rcases List.mem_cons.mp hq' with rfl | hq''
        · have hb2 : best.2 ≤ (ps.foldl
              (fun best q => if q.2 > best.2 then q else best) best).2 :=
            hmax best (List.mem_cons_self best ps)
          have hbe : best.2 = (ps.foldl
              (fun best q => if q.2 > best.2 then q else best) best).2 :=
            Nat.le_antisymm hb2 (hqe ▸ hple)
          exact Int.le_trans (hfirst best (List.mem_cons_self best ps) hbe) hbp
        · exact hfirst q (List.mem_cons_of_mem _ hq'') hqe

/-- The entries of `dailyTotals l` are exactly the pairs
`(d, dayTotal l d)` for `d` a date of `l`. -/
theorem mem_dailyTotals (l : List UsageRecord) (p : Int × Nat) :
    p ∈ dailyTotals l ↔ (∃ r ∈ l, r.date = p.1) ∧ p.2 = dayTotal l p.1 := by
  simp only [dailyTotals, List.mem_map, mem_sortBy, datesOf, List.mem_dedup]
  constructor
  · rintro ⟨d, ⟨r, hr, hrd⟩, rfl⟩
    exact ⟨⟨r, hr, hrd⟩, rfl⟩
  · rintro ⟨⟨r, hr, hrd⟩, hval⟩
    exact ⟨p.1, ⟨r, hr, hrd⟩, Prod.ext_iff.mpr ⟨rfl, hval.symm⟩⟩

/-- The index keys of `dailyTotals l` are non-decreasing (pandas sorts group
keys ascending). -/
theorem dailyTotals_keys_sorted (l : List UsageRecord) :
    (dailyTotals l).Pairwise (fun a b => a.1 ≤ b.1) := by
  refine List.pairwise_map.mpr ?_
  refine (sortBy_pairwise leInt_total leInt_trans (datesOf l)).imp ?_
  intro a b hab
  exact of_decide_eq_true hab

/-- C7: for a non-empty filtered frame, `peak_day` returns a date of the
frame whose per-day total is maximal, and among the dates attaining the
maximal total it is the earliest (the first in the date-ascending groupby
index, pandas `idxmax`'s first-occurrence rule). -/
theorem peak_day_correct (l : List UsageRecord) (hne : l ≠ []) :
    ∃ d : Int, peak_day l = some d ∧ (∃ r ∈ l, r.date = d) ∧
      (∀ r ∈ l, dayTotal l r.date ≤ dayTotal l d) ∧
      (∀ r ∈ l, dayTotal l r.date = dayTotal l d → d ≤ r.date) := by
  obtain ⟨p, ps, hL⟩ : ∃ p ps, dailyTotals l = p :: ps := by
    cases hdt : dailyTotals l with
    | cons p ps => exact ⟨p, ps, rfl⟩
    | nil =>
      exfalso
      obtain ⟨r, hr⟩ : ∃ r, r ∈ l := by
        cases l with
        | nil => exact absurd rfl hne
        | cons a l => exact ⟨a, List.mem_cons_self _ _⟩
      have : (r.date, dayTotal l r.date) ∈ dailyTotals l :=
        (mem_dailyTotals l _).mpr ⟨⟨r, hr, rfl⟩, rfl⟩
      rw [hdt] at this
      exact absurd this (List.not_mem_nil _)
  have hpw : (p :: ps).Pairwise (fun a b => a.1 ≤ b.1) := by
    rw [← hL]
    exact dailyTotals_keys_sorted l
  obtain ⟨hmem, hmax, hfirst⟩ := idxmax_foldl_spec ps p hpw
  set m := ps.foldl (fun best q => if q.2 > best.2 then q else best) p with hm
  have hpk : peak_day l = some m.1 := by
    show (idxmaxPair (dailyTotals l)).map (·.1) = some m.1
    rw [hL]
    rfl
  have hmL : m ∈ dailyTotals l := by rw [hL]; exact hmem
  obtain ⟨hmdate, hmval⟩ := (mem_dailyTotals l m).mp hmL
  refine ⟨m.1, hpk, hmdate, ?_, ?_⟩
  · intro r hr
    have hq : ((r.date, dayTotal l r.date) : Int × Nat) ∈ p :: ps := by
      rw [← hL]
      exact (mem_dailyTotals l _).mpr ⟨⟨r, hr, rfl⟩, rfl⟩
    have := hmax _ hq
    rw [← hmval]
    exact this
  · intro r hr hre
    have hq : ((r.date, dayTotal l r.date) : Int × Nat) ∈ p :: ps := by
      rw [← hL]
      exact (mem_dailyTotals l _).mpr ⟨⟨r, hr, rfl⟩, rfl⟩
    exact hfirst _ hq (by rw [hre, hmval])

theorem peak_day_correct_w :
    ∃ d : Int, peak_day [⟨0, "Boys", 5⟩] = some d ∧
      (∃ r ∈ [(⟨0, "Boys", 5⟩ : UsageRecord)], r.date = d) ∧
      (∀ r ∈ [(⟨0, "Boys", 5⟩ : UsageRecord)],
        dayTotal [⟨0, "Boys", 5⟩] r.date ≤ dayTotal [⟨0, "Boys", 5⟩] d) ∧
      (∀ r ∈ [(⟨0, "Boys", 5⟩ : UsageRecord)],
        dayTotal [⟨0, "Boys", 5⟩] r.date = dayTotal [⟨0, "Boys", 5⟩] d →
        d ≤ r.date) :=
  peak_day_correct [⟨0, "Boys", 5⟩] (by decide)

theorem sum_map_ite_single {D : List Int} {x : Int} (hnd : D.Nodup)
    (hx : x ∈ D) (v : Nat) :
    (D.map (fun d => if x = d then v else 0)).sum = v := by
  induction D with
  | nil => exact absurd hx (List.not_mem_nil x)
  | cons y D ih =>
    rw [List.nodup_cons] at hnd
    rw [List.map_cons, List.sum_cons]
    rcases List.mem_cons.mp hx with rfl | hxD
    · rw [if_pos rfl]
      have hz : (D.map (fun d => if x = d then v else 0)).sum = 0 := by
        refine List.sum_eq_zero ?_
        intro z hz
        obtain ⟨d, hd, rfl⟩ := List.mem_map.mp hz
        rw [if_neg (fun (he : x = d) => hnd.1 (by rw [he]; exact hd))]
      rw [hz]
      rfl
    · rw [if_neg (fun (he : x = y) => hnd.1 (by rw [← he]; exact hxD)),
        ih hnd.2 hxD, Nat.zero_add]

theorem dayTotal_cons (r : UsageRecord) (l : List UsageRecord) (d : Int) :
    dayTotal (r :: l) d = (if r.date = d then r.usage else 0) + dayTotal l d := by
  simp only [dayTotal, total_usage, List.filter_cons]
  by_cases h : r.date = d
  · simp [h]
  · simp [h]

/-- Partition law: summing the per-day totals over any duplicate-free list of
dates covering the frame gives the grand total. -/
theorem sum_dayTotal {D : List Int} (hnd : D.Nodup) :
    ∀ l : List UsageRecord, (∀ r ∈ l, r.date ∈ D) →
      (D.map (dayTotal l)).sum = total_usage l := by
  intro l
  induction l with
  | nil =>
    intro _
    refine List.sum_eq_zero ?_
    intro z hz
    obtain ⟨d, _, rfl⟩ := List.mem_map.mp hz
    rfl
  | cons r l ih =>
    intro hcov
    have h1 : D.map (dayTotal (r :: l)) =
        D.map (fun d => (if r.date = d then r.usage else 0) + dayTotal l d) :=
      List.map_congr_left (fun d _ => dayTotal_cons r l d)
    rw [h1, List.sum_map_add,
      sum_map_ite_single hnd (hcov r (List.mem_cons_self r l)) r.usage,
      ih (fun r' hr' => hcov r' (List.mem_cons_of_mem _ hr'))]
    rfl

/-- C8: `avg_daily` — the mean of the per-day totals — equals the grand total
divided by the number of distinct dates of the filtered frame, in exact
rational arithmetic; on the empty frame the value is 0. -/
theorem avg_daily_correct (l : List UsageRecord) :
    (l ≠ [] → avg_daily l = (total_usage l : ℚ) / ((datesOf l).length : ℚ)) ∧
      (l = [] → avg_daily l = 0) := by
  constructor
  · intro _
    have hperm := sortBy_perm (fun a b : Int => decide (a ≤ b)) (datesOf l)
    have hnd : (sortBy (fun a b : Int => decide (a ≤ b)) (datesOf l)).Nodup :=
      hperm.nodup_iff.mpr (List.nodup_dedup _)
    have hcov : ∀ r ∈ l,
        r.date ∈ sortBy (fun a b : Int => decide (a ≤ b)) (datesOf l) :=
      fun r hr => (mem_sortBy _ _ _).mpr
        (List.mem_dedup.mpr (List.mem_map_of_mem _ hr))
    have hsum : (((dailyTotals l).map (fun p => (p.2 : ℚ))).sum) =
        ((total_usage l : ℕ) : ℚ) := by
      rw [dailyTotals, List.map_map]
      rw [← sum_dayTotal hnd l hcov, Nat.cast_list_sum, List.map_map]
      rfl
    have hlen : (dailyTotals l).length = (datesOf l).length := by
      rw [dailyTotals, List.length_map, hperm.length_eq]
    rw [avg_daily, hsum, hlen]
  · rintro rfl
    simp [avg_daily, dailyTotals, datesOf, sortBy]

theorem avg_daily_correct_w :
    (avg_daily [⟨0, "Boys", 5⟩] = (total_usage [⟨0, "Boys", 5⟩] : ℚ) /
        ((datesOf [⟨0, "Boys", 5⟩]).length : ℚ)) ∧
      avg_daily [] = 0 :=
  ⟨(avg_daily_correct [⟨0, "Boys", 5⟩]).1 (by decide),
    (avg_daily_correct []).2 rfl⟩

/-- C9: for a non-empty filtered frame, the leaderboard is the category-total
table sorted ascending by total usage: adjacent totals are non-decreasing, and
its rows are a permutation of the `category_usage` rows. -/
theorem leaderboard_sorted (l : List UsageRecord) (hne : l ≠ []) :
    (leaderboard l).Pairwise (fun p q => p.2 ≤ q.2) ∧
      (leaderboard l).Perm (category_usage l) := by
  constructor
  · have hp := @sortBy_pairwise (String × Nat)
      (fun p q : String × Nat => decide (p.2 ≤ q.2))
      (fun a b hab => by
        simp only [decide_eq_false_iff_not, not_le] at hab
        exact decide_eq_true (Nat.le_of_lt hab))
      (fun a b c hab hbc => by
        simp only [decide_eq_true_eq] at hab hbc ⊢
        exact Nat.le_trans hab hbc)
      (category_usage l)
    exact hp.imp (fun hd => of_decide_eq_true hd)
  · exact sortBy_perm _ _

theorem leaderboard_sorted_w :
    (leaderboard [⟨0, "Boys", 5⟩]).Pairwise (fun p q => p.2 ≤ q.2) ∧
      (leaderboard [⟨0, "Boys", 5⟩]).Perm (category_usage [⟨0, "Boys", 5⟩]) :=
  leaderboard_sorted [⟨0, "Boys", 5⟩] (by decide)

/-- C10: boolean-mask filtering keeps records in their original positions:
the filtered frame is a sublist of the dataset, the multiplicity of every
record is preserved when it passes the mask and zero otherwise, any
non-decreasing date column stays non-decreasing after filtering, and the
generated dataset's date column is non-decreasing (date-major order) — so
the per-date grouping downstream meets dates in ascending order. -/
theorem filtered_df_preserves_order (df : List UsageRecord) (s e : Int)
    (cats : List String) :
    (filtered_df df s e cats).Sublist df ∧
      (∀ r : UsageRecord,
        (filtered_df df s e cats).countP (fun x => decide (x = r)) =
          if rowMask s e cats r then df.countP (fun x => decide (x = r))
          else 0) ∧
      ((df.map (·.date)).Pairwise (· ≤ ·) →
        ((filtered_df df s e cats).map (·.date)).Pairwise (· ≤ ·)) ∧
      (∀ (today : Int) (rand : Nat → Nat),
        ((generate_data today rand).map (·.date)).Pairwise (· ≤ ·)) := by
  refine ⟨List.filter_sublist df, ?_, ?_, ?_⟩
  · intro r
    rw [filtered_df, List.countP_filter]
    by_cases hmask : rowMask s e cats r
    · rw [if_pos hmask]
      refine List.countP_congr ?_
      intro x _
      simp only [Bool.and_eq_true, decide_eq_true_eq]
      constructor
      · rintro ⟨rfl, _⟩
        exact rfl
      · rintro rfl
        exact ⟨rfl, hmask⟩
    · rw [if_neg hmask]
      refine List.countP_eq_zero.mpr ?_
      intro x _
      simp only [Bool.and_eq_true, decide_eq_true_eq, not_and]
      rintro rfl
      exact fun hm => hmask hm
  · intro hdf
    exact List.Pairwise.sublist ((List.filter_sublist df).map _) hdf
  · intro today rand
    have hk : (generate_data today rand).map (·.date) =
        ((generate_data today rand).map (fun r => (r.date, r.category))).map
          Prod.fst := by
      rw [List.map_map]
      rfl
    rw [hk, generate_data_keys, List.map_flatMap]
    rw [List.pairwise_flatMap]
    constructor
    · intro d _
      simp [categories]
    · simp only [dateRange]
      refine List.pairwise_map.mpr ?_
      refine (List.pairwise_lt_range 31).imp ?_
      intro i j hij x hx y hy
      simp only [List.map_map, List.mem_map, categories] at hx hy
      obtain ⟨cx, _, rfl⟩ := hx
      obtain ⟨cy, _, rfl⟩ := hy
      simp only [Function.comp, secPerDay]
      omega

theorem filtered_df_preserves_order_w :
    (filtered_df [⟨0, "Boys", 5⟩] 0 0 ["Boys"]).Sublist [⟨0, "Boys", 5⟩] ∧
      (∀ r : UsageRecord,
        (filtered_df [⟨0, "Boys", 5⟩] 0 0 ["Boys"]).countP
            (fun x => decide (x = r)) =
          if rowMask 0 0 ["Boys"] r then
            ([(⟨0, "Boys", 5⟩ : UsageRecord)]).countP (fun x => decide (x = r))
          else 0) ∧
      ((([(⟨0, "Boys", 5⟩ : UsageRecord)]).map (·.date)).Pairwise (· ≤ ·) →
        ((filtered_df [⟨0, "Boys", 5⟩] 0 0 ["Boys"]).map
          (·.date)).Pairwise (· ≤ ·)) ∧
      (∀ (today : Int) (rand : Nat → Nat),
        ((generate_data today rand).map (·.date)).Pairwise (· ≤ ·)) :=
  filtered_df_preserves_order [⟨0, "Boys", 5⟩] 0 0 ["Boys"]

theorem empty_filter_defaults_w :
    Output.totalUsage
        { warned := false, filtered := [], totalUsage := 0, avgDaily := 0,
          peakDay := none, categoryUsage := [], board := [] } = 0 ∧
      Output.avgDaily
        { warned := false, filtered := [], totalUsage := 0, avgDaily := 0,
          peakDay := none, categoryUsage := [], board := [] } = 0 ∧
      Output.peakDay
        { warned := false, filtered := [], totalUsage := 0, avgDaily := 0,
          peakDay := none, categoryUsage := [], board := [] } = none ∧
      Output.board
        { warned := false, filtered := [], totalUsage := 0, avgDaily := 0,
          peakDay := none, categoryUsage := [], board := [] } = [] :=
  empty_filter_defaults [] 0 0 ["Boys"] _ rfl rfl
